import Mathlib

/-!
Verification of the Voliware/logger repository's formatting and rotation
subsystem against its natural-language specification.

The JavaScript source is shallowly embedded: JS `undefined`-able values
become `Option`, JS exceptions become `Except`, the wall clock is passed
explicitly as a `Clock` record of the strings the various `Date`
methods would produce, and file/stream state is threaded explicitly.
-/

set_option maxRecDepth 4000

/-! ## The message model (`src/loggerMessage.js`, current version)

Embeds the second `LoggerMessage` class of `src/unnamed/part_001`
(constructor defaults `undefined`, bracket-wrapping done in `toString`).
-/

/-- The strings a `Date` constructed at some instant renders to, plus
`Date.now()`.  One `Clock` value stands for one instant. -/
structure Clock where
  utcString : String
  localeString : String
  localeTimeString : String
  localeDateString : String
  nowMs : Nat
  deriving DecidableEq

/-- A JavaScript runtime exception relevant to this code base. -/
inductive JsError where
  /-- Evaluating an identifier with no binding in scope. -/
  | referenceError
  deriving DecidableEq

/-- `LoggerMessage.level.string`: the fixed table of 3-letter level codes,
indexed by the numeric level. -/
def levelStrings : List String := ["VRB", "DBG", "INF", "WRN", "ERR"]

/-- The timestamp format enum of the current `LoggerMessage`:
`none: 0, utc: 1, locale: 2, localetime: 3, localedate: 4, numeric: 5`. -/
def tsNone : Nat := 0
def tsUtc : Nat := 1
def tsLocale : Nat := 2
def tsLocaletime : Nat := 3
def tsLocaledate : Nat := 4
def tsNumeric : Nat := 5

/-- `LoggerMessage.generateTimestamp(format)` of the current version.
The `numeric` case executes `generateNumericTimestamp();`, an identifier
that is bound nowhere in the module (the method does not exist on this
version of the class), so it throws a `ReferenceError`.  The `none` case
and the `default` case return `undefined`. -/
def generateTimestamp (clock : Clock) (format : Nat) : Except JsError (Option String) :=
  if format = tsUtc then .ok (some clock.utcString)
  else if format = tsLocaledate then .ok (some clock.localeDateString)
  else if format = tsLocaletime then .ok (some clock.localeTimeString)
  else if format = tsNumeric then .error .referenceError
  else if format = tsLocale then .ok (some clock.localeString)
  else .ok none

/-- A constructed log record: each field is a JS value that is either a
string or `undefined` (`Option String`). -/
structure LoggerMessage where
  context : Option String
  level : Option String
  name : Option String
  text : Option String
  timestamp : Option String
  deriving DecidableEq

/-- The `LoggerMessage` constructor: `level` is replaced by
`LoggerMessage.level.string[level]` when defined (an out-of-range index
yields `undefined`), `timestamp` is resolved through `generateTimestamp`
when defined, the other fields are stored as given. -/
def mkLoggerMessage (clock : Clock) (context : Option String) (level : Option Nat)
    (name : Option String) (text : Option String) (timestamp : Option Nat) :
    Except JsError LoggerMessage := do
  let ts : Option String ← match timestamp with
    | some f => generateTimestamp clock f
    | none => pure none
  pure { context := context
         level := level.bind (fun l => levelStrings.get? l)
         name := name
         text := text
         timestamp := ts }

/-- JS truthiness of a string-or-undefined value: `undefined` and the
empty string are falsy. -/
def jsTruthy : Option String → Bool
  | none => false
  | some s => s ≠ ""

/-- One field of `LoggerMessage.toString`: `field ? ``[${field}] `` : ''`. -/
def wrapField (o : Option String) : String :=
  if jsTruthy o then "[" ++ o.getD "" ++ "] " else ""

/-- `LoggerMessage.toString` of the current version: each truthy field is
bracket-wrapped with a trailing space, concatenated in the order
timestamp, level, name, context, followed by the bare text. -/
def LoggerMessage.toString (m : LoggerMessage) : String :=
  wrapField m.timestamp ++ wrapField m.level ++ wrapField m.name ++ wrapField m.context ++
    (if jsTruthy m.text then m.text.getD "" else "")

lemma generateTimestamp_none (clock : Clock) : generateTimestamp clock tsNone = .ok none := rfl

lemma levelStrings_get_ne_empty : ∀ i : Fin levelStrings.length, levelStrings.get i ≠ "" := by
  decide

/-- C1: a record with name `n`, a valid level `l`, optional context `c`,
text `t` and no timestamp formats to the present fields each
bracket-wrapped with a single trailing space in the fixed order
level, name, context, followed by the bare text; empty or absent fields
contribute nothing, and the level renders as the 3-letter code of the
fixed table `["VRB", "DBG", "INF", "WRN", "ERR"]`. -/
theorem format_fixed_order_and_codes (clock : Clock) (n t : String) (c : Option String)
    (l : Nat) (h : l < levelStrings.length) :
    (mkLoggerMessage clock c (some l) (some n) (some t) (some tsNone)).map LoggerMessage.toString
      = .ok ("[" ++ levelStrings.get ⟨l, h⟩ ++ "] "
          ++ (if n = "" then "" else "[" ++ n ++ "] ")
          ++ (match c with
              | none => ""
              | some s => if s = "" then "" else "[" ++ s ++ "] ")
          ++ t) := by
  have hlv : levelStrings.get? l = some (levelStrings.get ⟨l, h⟩) := List.get?_eq_get h
  have hcode := levelStrings_get_ne_empty ⟨l, h⟩
  rw [List.get_eq_getElem] at hcode
  have htt : (if t = "" then "" else t) = t := by
    by_cases ht : t = "" <;> simp [ht]
  show Except.map LoggerMessage.toString
      (Except.ok { context := c, level := levelStrings.get? l, name := some n,
                   text := some t, timestamp := none }) = _
  rw [hlv]
  simp only [Except.map, LoggerMessage.toString, wrapField, jsTruthy, Option.getD_some,
    Bool.false_eq_true, if_false, ne_eq, decide_not, Except.ok.injEq]
  rcases c with _ | s
  · by_cases hn : n = "" <;> simp [hn, hcode, htt]
  · by_cases hn : n = "" <;> by_cases hs : s = "" <;> simp [hn, hs, hcode, htt]

/-- C1 witness: name `"App"`, context `"User"`, level info, text `"Test"`,
no timestamp formats to exactly `"[INF] [App] [User] Test"`. -/
theorem format_fixed_order_and_codes_witness :
    (mkLoggerMessage ⟨"u", "lc", "lt", "ld", 0⟩ (some "User") (some 2) (some "App")
        (some "Test") (some tsNone)).map LoggerMessage.toString
      = .ok "[INF] [App] [User] Test" := by
  rw [format_fixed_order_and_codes ⟨"u", "lc", "lt", "ld", 0⟩ "App" "Test" (some "User") 2
    (by decide)]
  rfl

/-- C8: constructing a record with timestamp mode `numeric` does not
yield the milliseconds-since-epoch value as a decimal string; the
constructor throws a `ReferenceError`, because the current
`generateTimestamp` executes `generateNumericTimestamp();` — an
identifier bound nowhere in the module — in that case. -/
theorem numeric_timestamp_construction_throws :
    mkLoggerMessage ⟨"u", "lc", "lt", "ld", 1628828513146⟩ none (some 2) (some "App")
        (some "Test") (some tsNumeric)
      = .error .referenceError := rfl

/-! ## The browser `Logger` (first class of `src/src/logger.js`)

Its `log`, `createMessage`, `setLogLevel` and `setTimestampFormat`
methods.  Level arguments may arrive as JS numbers or strings.
-/

/-- A JS argument that is either a number or a string. -/
inductive JsArg where
  | num (n : Int)
  | str (s : String)
  deriving DecidableEq

/-- `Logger.level.stringmap`. -/
def levelStringmap (s : String) : Option Nat :=
  if s = "verbose" then some 0
  else if s = "debug" then some 1
  else if s = "info" then some 2
  else if s = "warning" then some 3
  else if s = "error" then some 4
  else none

/-- `Logger.timestamp.stringmap`. -/
def timestampStringmap (s : String) : Option Nat :=
  if s = "utc" then some 0
  else if s = "locale" then some 1
  else if s = "localetime" then some 2
  else if s = "localedate" then some 3
  else none

/-- `Logger.level.isValidLevel`, applied to a possibly-`undefined` value:
in JS, `undefined >= 0` is false. -/
def isValidLevel (v : Option Int) : Bool :=
  match v with
  | none => false
  | some n => 0 ≤ n && n ≤ 4

/-- `Logger.timestamp.isValidTimestamp`, applied to a possibly-`undefined`
value. -/
def isValidTimestamp (v : Option Int) : Bool :=
  match v with
  | none => false
  | some n => 0 ≤ n && n ≤ 3

/-- Which `appendTimestamp` method `setTimestampFormat` installs. -/
inductive TsFn where
  | utc | locale | localetime | localedate
  deriving DecidableEq

/-- The mutable state of the browser `Logger`. -/
structure OldLogger where
  name : String
  level : Nat
  context : Option String
  tsState : Bool
  tsFn : TsFn
  deriving DecidableEq

/-- `Logger.setLogLevel`: a string goes through `Logger.level.stringmap`
(an unrecognized name yields `undefined`); an invalid value prints a
console error and leaves the level unchanged.  The second component
collects the `console.error` lines printed during the call. -/
def setLogLevel (st : OldLogger) (arg : JsArg) : OldLogger × List String :=
  let v : Option Int := match arg with
    | .str s => (levelStringmap s).map (fun n => (n : Int))
    | .num n => some n
  if isValidLevel v then ({ st with level := (v.getD 0).toNat }, [])
  else (st, ["Logger.setLogLevel: invalid log level"])

/-- `Logger.setTimestampFormat`: a string goes through
`Logger.timestamp.stringmap`; an invalid value prints a console error
and leaves the installed format unchanged; a valid one installs the
matching `appendTimestamp` method (`locale` is also the `default` case
of the switch). -/
def setTimestampFormat (st : OldLogger) (arg : JsArg) : OldLogger × List String :=
  let v : Option Int := match arg with
    | .str s => (timestampStringmap s).map (fun n => (n : Int))
    | .num n => some n
  if isValidTimestamp v then
    let fn := if v = some 0 then TsFn.utc
      else if v = some 3 then TsFn.localedate
      else if v = some 2 then TsFn.localetime
      else TsFn.locale
    ({ st with tsFn := fn }, [])
  else (st, ["Logger.setTimestampFormat: invalid timestamp"])

/-- A digit character's value. -/
def digitVal (c : Char) : Option Nat :=
  if '0' ≤ c && c ≤ '9' then some (c.toNat - '0'.toNat) else none

/-- Left-to-right decimal accumulation. -/
def decimalValueAux : List Char → Nat → Option Nat
  | [], acc => some acc
  | c :: rest, acc =>
    match digitVal c with
    | some d => decimalValueAux rest (acc * 10 + d)
    | none => none

/-- The value of a nonempty all-digit character list, `none` otherwise. -/
def decimalValue : List Char → Option Nat
  | [] => none
  | c :: rest => decimalValueAux (c :: rest) 0

/-- Whitespace that JS `Number(s)` trims before converting. -/
def isJsSpace (c : Char) : Bool :=
  c = ' ' || c = '\t' || c = '\n' || c = '\r'

/-- A character list with JS whitespace trimmed from both ends. -/
def trimJsSpace (cs : List Char) : List Char :=
  ((cs.dropWhile isJsSpace).reverse.dropWhile isJsSpace).reverse

/-- JS `Number(s)`, with `none` for `NaN`: the string is trimmed of
whitespace; an empty remainder converts to 0 (`Number("") = 0`,
`Number(" ") = 0`); an optional sign followed by decimal digits to its
integer value (`Number(" 1") = 1`); any other remainder — including
every level name — to `NaN`.  (JS additionally accepts fractional,
hexadecimal, binary and exponent literals; no statement below
instantiates those shapes.) -/
def jsStringToNumber (s : String) : Option Int :=
  match trimJsSpace s.data with
  | [] => some 0
  | '+' :: ds => (decimalValue ds).map (fun n => (n : Int))
  | '-' :: ds => (decimalValue ds).map (fun n => -(n : Int))
  | ds => (decimalValue ds).map (fun n => (n : Int))

/-- JS canonical array index: the property access `arr[s]` hits element
`n` exactly when `s` is the canonical decimal representation of `n`. -/
def jsCanonIndex (s : String) : Option Nat :=
  match decimalValue s.toList with
  | some n => if Nat.repr n = s then some n else none
  | none => none

/-- What the template `${Logger.level.string[level]}` renders for a level
argument: a valid index gives the table entry, anything else gives the
JS `undefined`, which the template renders as the text `"undefined"`. -/
def jsLevelCode (arg : JsArg) : String :=
  match arg with
  | .num n => if 0 ≤ n then (levelStrings.get? n.toNat).getD "undefined" else "undefined"
  | .str s =>
    match jsCanonIndex s with
    | some n => (levelStrings.get? n).getD "undefined"
    | none => "undefined"

/-- The string an installed `appendTimestamp` method produces. -/
def appendTimestampStr (fn : TsFn) (clock : Clock) : String :=
  match fn with
  | .utc => "[" ++ clock.utcString ++ "] "
  | .locale => "[" ++ clock.localeString ++ "] "
  | .localetime => "[" ++ clock.localeTimeString ++ "] "
  | .localedate => "[" ++ clock.localeDateString ++ "] "

/-- `Logger.createMessage` (browser logger): optional timestamp, then
`[LEVEL] `, `[name] `, optional truthy `[context] `, then the message
(string payloads only; an object payload appends nothing). -/
def createMessage (st : OldLogger) (clock : Clock) (message : String) (level : JsArg) :
    String :=
  (if st.tsState then appendTimestampStr st.tsFn clock else "")
  ++ "[" ++ jsLevelCode level ++ "] "
  ++ "[" ++ st.name ++ "] "
  ++ (match st.context with
      | some c => if c = "" then "" else "[" ++ c ++ "] "
      | none => "")
  ++ message

/-- JS `level < this.options.level`: a string level is numerically
coerced, a non-numeric string gives `NaN`, and every comparison with
`NaN` is false. -/
def jsLevelBelow (level : JsArg) (threshold : Nat) : Bool :=
  match level with
  | .num n => n < (threshold : Int)
  | .str s =>
    match jsStringToNumber s with
    | some v => v < (threshold : Int)
    | none => false

/-- `Logger.log` (browser logger): suppressed below the threshold,
otherwise the formatted message goes to the console.  The JS method
returns `this` on both paths; the pair is (the value returned to the
caller, the console output if any). -/
def oldLog (st : OldLogger) (clock : Clock) (message : String) (level : JsArg) :
    OldLogger × Option String :=
  if jsLevelBelow level st.level then (st, none)
  else (st, some (createMessage st clock message level))

/-- A concrete logger at threshold info, no context, timestamps off. -/
def exLogger : OldLogger :=
  { name := "App", level := 2, context := none, tsState := false, tsFn := TsFn.locale }

/-- A concrete clock. -/
def exClock : Clock := ⟨"u", "lc", "lt", "ld", 0⟩

/-- C5 counterexample: with the threshold at info, a suppressed debug
call returns exactly the value a successful error-level call returns
(the logger itself, unchanged), so there is no "not logged" result
distinct from success — even though the suppressed call writes nothing. -/
theorem below_threshold_result_not_distinct :
    (oldLog exLogger exClock "hi" (.num 1)).1 = (oldLog exLogger exClock "hi" (.num 4)).1
    ∧ (oldLog exLogger exClock "hi" (.num 1)).2 = none
    ∧ (oldLog exLogger exClock "hi" (.num 4)).2 ≠ none := by
  decide

/-- C5 amended: a call whose numeric level is strictly below the
threshold performs no console write and is not an error; it returns the
logger itself — the same value a successful call returns. -/
theorem below_threshold_suppresses (st : OldLogger) (clock : Clock) (message : String)
    (n : Int) (h : n < (st.level : Int)) :
    oldLog st clock message (.num n) = (st, none) := by
  simp [oldLog, jsLevelBelow, h]

/-- C5 witness: the suppression theorem at a concrete below-threshold
call. -/
theorem below_threshold_suppresses_witness :
    (1 : Int) < (exLogger.level : Int)
    ∧ oldLog exLogger exClock "hi" (.num 1) = (exLogger, none) :=
  ⟨by decide, below_threshold_suppresses exLogger exClock "hi" 1 (by decide)⟩

/-- C6 counterexample: supplying the unrecognized level name `"oops"`
directly to `log` is not reported as a configuration error; the call
silently emits the message with the level code rendered as the text
`"undefined"`. -/
theorem unrecognized_level_to_log_is_silent :
    oldLog exLogger exClock "hi" (.str "oops") = (exLogger, some "[undefined] [App] hi") := by
  decide

/-- C6 amended: an unrecognized name given to `setLogLevel` or
`setTimestampFormat` prints a console error and leaves the
configuration unchanged (in particular no silent fallback to the locale
format).  A string supplied as the level of a `log` call, however, is
never resolved through the name map, never validated and never reported
(the method has no error channel at all): the string is numerically
coerced for the threshold check, so a numeric or empty string below the
threshold is silently suppressed (at threshold info, `log("hi", "")`
writes nothing since `Number("") = 0`), and an emitted message's level
code comes from raw array indexing — the fixed code for a canonical
in-range index string (`"3"` emits `[WRN]`), the text `"undefined"` for
anything else, including the level names themselves (`"error"` emits
`[undefined]`). -/
theorem unrecognized_names_behavior (st : OldLogger) (s : String)
    (hl : levelStringmap s = none) (ht : timestampStringmap s = none) :
    setLogLevel st (.str s) = (st, ["Logger.setLogLevel: invalid log level"])
    ∧ setTimestampFormat st (.str s) = (st, ["Logger.setTimestampFormat: invalid timestamp"])
    ∧ oldLog exLogger exClock "hi" (.str "3") = (exLogger, some "[WRN] [App] hi")
    ∧ oldLog exLogger exClock "hi" (.str "") = (exLogger, none)
    ∧ oldLog exLogger exClock "hi" (.str "error") = (exLogger, some "[undefined] [App] hi") := by
  refine ⟨?_, ?_, by decide, by decide, by decide⟩
  · simp [setLogLevel, hl, isValidLevel]
  · simp [setTimestampFormat, ht, isValidTimestamp]

/-- C6 witness: the previous theorem at the concrete unrecognized name
`"oops"`. -/
theorem unrecognized_names_behavior_witness :
    (levelStringmap "oops" = none ∧ timestampStringmap "oops" = none)
    ∧ (setLogLevel exLogger (.str "oops") = (exLogger, ["Logger.setLogLevel: invalid log level"])
      ∧ setTimestampFormat exLogger (.str "oops")
          = (exLogger, ["Logger.setTimestampFormat: invalid timestamp"])
      ∧ oldLog exLogger exClock "hi" (.str "3") = (exLogger, some "[WRN] [App] hi")
      ∧ oldLog exLogger exClock "hi" (.str "") = (exLogger, none)
      ∧ oldLog exLogger exClock "hi" (.str "error") = (exLogger, some "[undefined] [App] hi")) :=
  ⟨⟨by decide, by decide⟩,
    unrecognized_names_behavior exLogger "oops" (by decide) (by decide)⟩

/-! ## `MongoDbLogger.cloneAndFilterObject` (`src/unnamed/part_000`) -/

/-- A JS value as it reaches the collection sink: a scalar (kept
verbatim), `null`, an ObjectId carrying its canonical string, or a plain
object as a list of key-value entries. -/
inductive JsVal where
  | prim (s : String)
  | jnull
  | objectId (hex : String)
  | obj (fields : List (String × JsVal))

/-- `i.replace(/[$.]/g, '')`: the key with every `$` and `.` removed. -/
def cleanKey (k : String) : String :=
  String.mk (k.data.filter (fun c => c != '$' && c != '.'))

/-- `MongoDbLogger.cloneAndFilterObject`: clones an object's entries in
order; an entry whose value is an ObjectId becomes its string form under
the original key; every other entry gets its key stripped of `$` and
`.`, recursing into non-null object values. -/
def cloneAndFilterObject : List (String × JsVal) → List (String × JsVal)
  | [] => []
  | (k, JsVal.objectId h) :: rest => (k, JsVal.prim h) :: cloneAndFilterObject rest
  | (k, JsVal.obj fields) :: rest =>
      (cleanKey k, JsVal.obj (cloneAndFilterObject fields)) :: cloneAndFilterObject rest
  | (k, JsVal.jnull) :: rest => (cleanKey k, JsVal.jnull) :: cloneAndFilterObject rest
  | (k, JsVal.prim s) :: rest => (cleanKey k, JsVal.prim s) :: cloneAndFilterObject rest
termination_by fields => sizeOf fields

mutual

/-- Written from the claim's words: the transform on a value that
converts ObjectIds to their canonical strings and recurses into objects,
where uniformly every key is stripped of `$` and `.`. -/
def uniformCloneVal : JsVal → JsVal
  | JsVal.objectId h => JsVal.prim h
  | JsVal.obj fields => JsVal.obj (uniformClone fields)
  | JsVal.jnull => JsVal.jnull
  | JsVal.prim s => JsVal.prim s

/-- Written from the claim's words: strips `$` and `.` from every key at
every nesting level, including keys whose values are ObjectIds. -/
def uniformClone : List (String × JsVal) → List (String × JsVal)
  | [] => []
  | (k, v) :: rest => (cleanKey k, uniformCloneVal v) :: uniformClone rest

end

mutual

/-- The amended transform on a value: as the uniform one. -/
def amendedCloneVal : JsVal → JsVal
  | JsVal.objectId h => JsVal.prim h
  | JsVal.obj fields => JsVal.obj (amendedClone fields)
  | JsVal.jnull => JsVal.jnull
  | JsVal.prim s => JsVal.prim s

/-- The amended transform on entries: as the uniform one, except that an
entry whose value is an ObjectId keeps its key verbatim. -/
def amendedClone : List (String × JsVal) → List (String × JsVal)
  | [] => []
  | (k, JsVal.objectId h) :: rest => (k, JsVal.prim h) :: amendedClone rest
  | (k, v) :: rest => (cleanKey k, amendedCloneVal v) :: amendedClone rest

end

/-- C7 counterexample: an entry whose value is an ObjectId keeps its raw
key: `{"$id": ObjectId("abc")}` clones to an object whose key still
holds the reserved character `$`, where the claimed uniform transform
yields the stripped key `"id"`. -/
theorem objectid_key_not_stripped :
    cloneAndFilterObject [("$id", JsVal.objectId "abc")] = [("$id", JsVal.prim "abc")]
    ∧ uniformClone [("$id", JsVal.objectId "abc")] = [("id", JsVal.prim "abc")]
    ∧ ("$id" : String) ≠ "id" := by
  refine ⟨?_, ?_, by decide⟩
  · simp [cloneAndFilterObject]
  · simp [uniformClone, uniformCloneVal]
    decide

/-- C7 amended: the clone strips `$` and `.` from keys and recursively
clones object values at every nesting level, and converts every
ObjectId value (at any level) to its canonical string — except that an
entry whose value is an ObjectId keeps its key verbatim. -/
theorem cloneAndFilterObject_eq_amended :
    ∀ fields, cloneAndFilterObject fields = amendedClone fields
  | [] => by simp [cloneAndFilterObject, amendedClone]
  | (k, JsVal.objectId h) :: rest => by
      simp [cloneAndFilterObject, amendedClone, cloneAndFilterObject_eq_amended rest]
  | (k, JsVal.obj f) :: rest => by
      simp [cloneAndFilterObject, amendedClone, amendedCloneVal,
        cloneAndFilterObject_eq_amended f, cloneAndFilterObject_eq_amended rest]
  | (k, JsVal.jnull) :: rest => by
      simp [cloneAndFilterObject, amendedClone, amendedCloneVal,
        cloneAndFilterObject_eq_amended rest]
  | (k, JsVal.prim s) :: rest => by
      simp [cloneAndFilterObject, amendedClone, amendedCloneVal,
        cloneAndFilterObject_eq_amended rest]
termination_by fields => sizeOf fields

/-! ## `FirstLineTransform` (`src/src/firstLineTransform.js`) and
`FileLogger.deleteFirstLine` (second class of `src/src/logger.js`)

File contents and chunks are modelled at the level the JS code actually
manipulates them: lists of decoded characters (the stream's
`chunk.toString()`).  Every count the source computes (`.length`,
`bytes_removed`) is therefore a string-length count, NOT an on-disk
byte count; where a statement below speaks of disk bytes, the UTF-8
byte size is computed separately.  Chunk boundaries are modelled at
character boundaries; a read chunk split inside a multi-byte character
would additionally decode to replacement characters.
-/

/-- Whether `pat` matches at the very beginning of `s`. -/
def matchesAt : List Char → List Char → Bool
  | [], _ => true
  | _ :: _, [] => false
  | p :: ps, c :: cs => p == c && matchesAt ps cs

/-- `String.prototype.indexOf` scanning from position `i`. -/
def jsIndexOfAux (pat : List Char) : List Char → Nat → Option Nat
  | [], i => if matchesAt pat [] then some i else none
  | c :: rest, i =>
    if matchesAt pat (c :: rest) then some i else jsIndexOfAux pat rest (i + 1)

/-- `s.indexOf(pat)`: position of the first occurrence, if any. -/
def jsIndexOf (pat s : List Char) : Option Nat := jsIndexOfAux pat s 0

lemma matchesAt_length_le {pat : List Char} :
    ∀ {s : List Char}, matchesAt pat s = true → pat.length ≤ s.length := by
  induction pat with
  | nil => intro s _; simp
  | cons p ps ih =>
    intro s h
    cases s with
    | nil => simp [matchesAt] at h
    | cons c cs =>
      simp only [matchesAt, Bool.and_eq_true, beq_iff_eq] at h
      simpa using Nat.succ_le_succ (ih h.2)

lemma matchesAt_append_left {pat : List Char} (q : List Char) :
    ∀ {s : List Char}, matchesAt pat s = true → matchesAt pat (s ++ q) = true := by
  induction pat with
  | nil => intro s _; simp [matchesAt]
  | cons p ps ih =>
    intro s h
    cases s with
    | nil => simp [matchesAt] at h
    | cons c cs =>
      simp only [matchesAt, Bool.and_eq_true, beq_iff_eq] at h
      simp only [List.cons_append, matchesAt, Bool.and_eq_true, beq_iff_eq]
      exact ⟨h.1, ih h.2⟩

lemma matchesAt_append_of_le {pat : List Char} (q : List Char) :
    ∀ {s : List Char}, pat.length ≤ s.length → matchesAt pat (s ++ q) = matchesAt pat s := by
  induction pat with
  | nil => intro s _; simp [matchesAt]
  | cons p ps ih =>
    intro s hlen
    cases s with
    | nil => simp at hlen
    | cons c cs =>
      have hlen' : ps.length ≤ cs.length := by simpa using hlen
      simp only [List.cons_append, matchesAt, List.append_eq]
      rw [ih hlen']

lemma jsIndexOfAux_nil_pat (s : List Char) (i : Nat) : jsIndexOfAux [] s i = some i := by
  cases s <;> simp [jsIndexOfAux, matchesAt]

lemma jsIndexOfAux_bounds {pat : List Char} :
    ∀ {s : List Char} {i j : Nat}, jsIndexOfAux pat s i = some j →
      i ≤ j ∧ (j - i) + pat.length ≤ s.length := by
  intro s
  induction s with
  | nil =>
    intro i j h
    rw [jsIndexOfAux] at h
    by_cases hm : matchesAt pat [] = true
    · rw [if_pos hm] at h
      have hp := matchesAt_length_le hm
      simp only [Option.some.injEq] at h
      subst h
      simp only [List.length_nil] at hp ⊢
      omega
    · rw [if_neg hm] at h
      exact absurd h (by simp)
  | cons c cs ih =>
    intro i j h
    rw [jsIndexOfAux] at h
    by_cases hm : matchesAt pat (c :: cs) = true
    · rw [if_pos hm] at h
      have hp := matchesAt_length_le hm
      simp only [Option.some.injEq] at h
      subst h
      simp only [List.length_cons] at hp ⊢
      omega
    · rw [if_neg hm] at h
      have := ih h
      simp only [List.length_cons]
      omega

lemma jsIndexOfAux_append {pat : List Char} (q : List Char) :
    ∀ {s : List Char} {i j : Nat}, jsIndexOfAux pat s i = some j →
      jsIndexOfAux pat (s ++ q) i = some j := by
  intro s
  induction s with
  | nil =>
    intro i j h
    rw [jsIndexOfAux] at h
    by_cases hm : matchesAt pat [] = true
    · rw [if_pos hm] at h
      cases pat with
      | nil =>
        simp only [Option.some.injEq] at h
        subst h
        simp [jsIndexOfAux_nil_pat]
      | cons p ps => simp [matchesAt] at hm
    · rw [if_neg hm] at h
      exact absurd h (by simp)
  | cons c cs ih =>
    intro i j h
    rw [jsIndexOfAux] at h
    by_cases hm : matchesAt pat (c :: cs) = true
    · rw [if_pos hm] at h
      have hm' := matchesAt_append_left q hm
      rw [List.cons_append, jsIndexOfAux]
      rw [← List.cons_append, if_pos hm']
      exact h
    · rw [if_neg hm] at h
      have hb := jsIndexOfAux_bounds h
      have hlen : pat.length ≤ (c :: cs).length := by
        simp only [List.length_cons]
        omega
      have hm2 : ¬ matchesAt pat ((c :: cs) ++ q) = true := by
        rw [matchesAt_append_of_le q hlen]
        exact hm
      rw [List.cons_append, jsIndexOfAux, ← List.cons_append, if_neg hm2]
      exact ih h

lemma jsIndexOf_append {pat s : List Char} (q : List Char) {j : Nat}
    (h : jsIndexOf pat s = some j) : jsIndexOf pat (s ++ q) = some j :=
  jsIndexOfAux_append q h

lemma jsIndexOf_bounds {pat s : List Char} {j : Nat} (h : jsIndexOf pat s = some j) :
    j + pat.length ≤ s.length := by
  have := jsIndexOfAux_bounds h
  omega

lemma jsIndexOf_nil {pat : List Char} (h : pat ≠ []) : jsIndexOf pat [] = none := by
  cases pat with
  | nil => exact absurd rfl h
  | cons p ps => simp [jsIndexOf, jsIndexOfAux, matchesAt]

lemma drop_append_of_le {α : Type} :
    ∀ {n : Nat} {l₁ : List α} (l₂ : List α), n ≤ l₁.length →
      (l₁ ++ l₂).drop n = l₁.drop n ++ l₂ := by
  intro n
  induction n with
  | zero => intro l₁ l₂ _; simp
  | succ m ih =>
    intro l₁ l₂ h
    cases l₁ with
    | nil => simp at h
    | cons a as =>
      simp only [List.cons_append, List.drop_succ_cons]
      exact ih l₂ (by simpa using h)

/-- The transform's state: its `eol` marker, the accumulated
`firstline_buffer`, and the `bytes_removed` counter. -/
structure FLState where
  eol : List Char
  firstline_buffer : List Char
  bytes_removed : Nat
  deriving DecidableEq

/-- `new FirstLineTransform(eol)`. -/
def FLState.init (eol : List Char) : FLState := ⟨eol, [], 0⟩

/-- `FirstLineTransform._transform` on one chunk: once `bytes_removed`
is truthy, chunks pass straight through; before that the chunk joins the
buffer, which is searched for the end-of-line marker; on a hit the
prefix through the marker is dropped (its length recorded in
`bytes_removed`) and the remainder pushed.  Returns the new state and
the pushed output. -/
def transformChunk (st : FLState) (chunk : List Char) : FLState × List Char :=
  if st.bytes_removed ≠ 0 then (st, chunk)
  else
    let buf := st.firstline_buffer ++ chunk
    match jsIndexOf st.eol buf with
    | some i =>
      let endIdx := i + st.eol.length
      (⟨st.eol, [], (buf.take endIdx).length⟩, buf.drop endIdx)
    | none => (⟨st.eol, buf, st.bytes_removed⟩, [])

/-- Piping a chunk sequence through the transform, concatenating the
pushed output. -/
def runTransform (st : FLState) : List (List Char) → FLState × List Char
  | [] => (st, [])
  | c :: cs =>
    let r1 := transformChunk st c
    let r2 := runTransform r1.1 cs
    (r2.1, r1.2 ++ r2.2)

lemma runTransform_passthrough (st : FLState) (h : st.bytes_removed ≠ 0) :
    ∀ cs, runTransform st cs = (st, cs.flatten) := by
  intro cs
  induction cs with
  | nil => simp [runTransform]
  | cons c cs ih => simp [runTransform, transformChunk, h, ih]

/-- Behaviour of the transform from a search-phase state whose buffer
has no end-of-line marker yet: over any further chunk sequence it acts
on the flat concatenation of buffer and chunks. -/
lemma runTransform_search {eol : List Char} (heol : eol ≠ []) :
    ∀ (cs : List (List Char)) (buf : List Char), jsIndexOf eol buf = none →
      runTransform ⟨eol, buf, 0⟩ cs =
        match jsIndexOf eol (buf ++ cs.flatten) with
        | none => (⟨eol, buf ++ cs.flatten, 0⟩, [])
        | some i => (⟨eol, [], i + eol.length⟩, (buf ++ cs.flatten).drop (i + eol.length)) := by
  intro cs
  induction cs with
  | nil =>
    intro buf hb
    simp [runTransform, hb]
  | cons c cs ih =>
    intro buf hb
    have hstep : runTransform ⟨eol, buf, 0⟩ (c :: cs) =
        ((runTransform (transformChunk ⟨eol, buf, 0⟩ c).1 cs).1,
          (transformChunk ⟨eol, buf, 0⟩ c).2 ++ (runTransform (transformChunk ⟨eol, buf, 0⟩ c).1 cs).2) := rfl
    rw [hstep]
    have hjoin : buf ++ (c :: cs).flatten = (buf ++ c) ++ cs.flatten := by
      simp [List.append_assoc]
    rcases hcase : jsIndexOf eol (buf ++ c) with _ | i
    · -- no marker in the grown buffer yet
      have htc : transformChunk ⟨eol, buf, 0⟩ c = (⟨eol, buf ++ c, 0⟩, []) := by
        simp [transformChunk, hcase]
      rw [htc]
      have := ih (buf ++ c) hcase
      rw [this, hjoin]
      rcases h2 : jsIndexOf eol ((buf ++ c) ++ cs.flatten) with _ | i <;> simp
    · -- marker found in the grown buffer
      have hk : i + eol.length ≤ (buf ++ c).length := jsIndexOf_bounds hcase
      have htake : ((buf ++ c).take (i + eol.length)).length = i + eol.length := by
        rw [List.length_take]
        exact Nat.min_eq_left hk
      have htc : transformChunk ⟨eol, buf, 0⟩ c =
          (⟨eol, [], i + eol.length⟩, (buf ++ c).drop (i + eol.length)) := by
        simp [transformChunk, hcase, htake]
      rw [htc]
      have hkpos : i + eol.length ≠ 0 := by
        have : eol.length ≠ 0 := by
          cases eol with
          | nil => exact absurd rfl heol
          | cons a as => simp
        omega
      have hpass := runTransform_passthrough ⟨eol, [], i + eol.length⟩ hkpos cs
      rw [hpass, hjoin]
      rw [jsIndexOf_append cs.flatten hcase]
      simp only [List.append_assoc] at hjoin ⊢
      rw [← List.append_assoc, drop_append_of_le cs.flatten hk]

lemma int_clamp_eq_max (n : Int) : (if n < 0 then 0 else n) = max n 0 := by
  rcases lt_or_le n 0 with h | h
  · rw [if_pos h, max_eq_right h.le]
  · rw [if_neg (not_lt.mpr h), max_eq_left h]

/-- The file-sink state `deleteFirstLine` touches: the tracked
`filesize` counter and the file's content. -/
structure FileState where
  filesize : Int
  content : List Char
  deriving DecidableEq

/-- `FileLogger.deleteFirstLine`: the file is streamed through a fresh
`FirstLineTransform` in chunks, the pushed output replaces the file
(temp file, delete, rename), and `filesize` drops by
`transform.bytes_removed`, clamped at zero.  Despite its name, the
source computes `bytes_removed` as
`firstline_buffer.slice(0, eol_end_index).length` — the string length
of the decoded prefix, not its byte size on disk. -/
def deleteFirstLine (eol : List Char) (fs : FileState) (chunks : List (List Char)) :
    FileState :=
  let r := runTransform (FLState.init eol) chunks
  let ns : Int := fs.filesize - (r.1.bytes_removed : Int)
  ⟨if ns < 0 then 0 else ns, r.2⟩

/-- String-level characterization of `deleteFirstLine`: for a file
whose content holds an end-of-line marker (first occurrence at `i`),
however the read stream chunks the content, the output is exactly the
content after the marker and the counter drops by the string length
`i + eol.length` of the removed prefix, clamped at zero.  That length
equals the number of bytes removed only for single-byte text — the C2
theorem below exhibits the divergence. -/
theorem deleteFirstLine_removes_first_line (eol : List Char) (heol : eol ≠ [])
    (fs : FileState) (chunks : List (List Char)) (hch : chunks.flatten = fs.content)
    (i : Nat) (hfind : jsIndexOf eol fs.content = some i) :
    deleteFirstLine eol fs chunks
      = ⟨max (fs.filesize - ((i + eol.length : Nat) : Int)) 0,
          fs.content.drop (i + eol.length)⟩ := by
  have hrun := runTransform_search heol chunks [] (jsIndexOf_nil heol)
  rw [List.nil_append, hch, hfind] at hrun
  show (⟨if fs.filesize - ((runTransform (FLState.init eol) chunks).1.bytes_removed : Int) < 0
            then 0
            else fs.filesize - ((runTransform (FLState.init eol) chunks).1.bytes_removed : Int),
          (runTransform (FLState.init eol) chunks).2⟩ : FileState) = _
  rw [show FLState.init eol = ⟨eol, [], 0⟩ from rfl, hrun]
  rw [int_clamp_eq_max]

/-- Instance: on the single-byte two-line file `"ab\r\ncd\r\n"` (size 8,
read in one chunk) the eviction leaves exactly `"cd\r\n"` and the
counter drops from 8 to 4, matching the repository's own test. -/
theorem deleteFirstLine_removes_first_line_witness :
    deleteFirstLine "\r\n".data ⟨8, "ab\r\ncd\r\n".data⟩ ["ab\r\ncd\r\n".data]
      = ⟨4, "cd\r\n".data⟩ := by
  rw [deleteFirstLine_removes_first_line "\r\n".data (by decide) ⟨8, "ab\r\ncd\r\n".data⟩
    ["ab\r\ncd\r\n".data] (by decide) 2 (by decide)]
  decide

/-- C2: evicting the first line of the file `"é\r\ncd"` (6 bytes on
disk: `é` occupies two) records `bytes_removed = 3` — the string length
of the decoded prefix `"é\r\n"` — although that prefix occupies 4 bytes
on disk, so the counter is decremented by 3 where 4 bytes were
physically removed: starting from the correct on-disk size 6, the
counter lands at 3 while the remaining file `"cd"` holds 2 bytes.  The
decrement is the logical string length, not the byte count the claim
(and the spec's "bytes physically removed") requires. -/
theorem first_line_eviction_counter_not_bytes :
    (runTransform (FLState.init "\r\n".data) ["é\r\ncd".data]).1.bytes_removed = 3
    ∧ "é\r\n".utf8ByteSize = 4
    ∧ deleteFirstLine "\r\n".data ⟨6, "é\r\ncd".data⟩ ["é\r\ncd".data] = ⟨3, "cd".data⟩
    ∧ "cd".utf8ByteSize = 2
    ∧ "é\r\ncd".utf8ByteSize = 6 := by
  refine ⟨by decide, by decide, by decide, by decide, by decide⟩

/-- C10: when the file's content holds no end-of-line marker at all, the
filter emits no output — the rewritten file is empty, the entire content
discarded — while `bytes_removed` stays 0, so the size-counter
adjustment subtracts nothing. -/
theorem no_eol_discards_all_and_counts_zero (eol : List Char) (heol : eol ≠ [])
    (fs : FileState) (chunks : List (List Char)) (hch : chunks.flatten = fs.content)
    (hnone : jsIndexOf eol fs.content = none) (hsz : 0 ≤ fs.filesize) :
    (runTransform (FLState.init eol) chunks).1.bytes_removed = 0
    ∧ (runTransform (FLState.init eol) chunks).2 = []
    ∧ deleteFirstLine eol fs chunks = ⟨fs.filesize, []⟩ := by
  have hrun' : runTransform (FLState.init eol) chunks = (⟨eol, fs.content, 0⟩, []) := by
    have hrun := runTransform_search heol chunks [] (jsIndexOf_nil heol)
    rw [List.nil_append, hch, hnone] at hrun
    exact hrun
  refine ⟨by rw [hrun'], by rw [hrun'], ?_⟩
  show (⟨if fs.filesize - ((runTransform (FLState.init eol) chunks).1.bytes_removed : Int) < 0
            then 0
            else fs.filesize - ((runTransform (FLState.init eol) chunks).1.bytes_removed : Int),
          (runTransform (FLState.init eol) chunks).2⟩ : FileState) = _
  rw [hrun']
  have h0 : fs.filesize - ((0 : Nat) : Int) = fs.filesize := by omega
  rw [h0, if_neg (not_lt.mpr hsz)]

/-- C10 witness: a file holding `"abc"` (no marker) becomes empty while
the counter stays 3. -/
theorem no_eol_discards_all_and_counts_zero_witness :
    (runTransform (FLState.init "\r\n".data) ["abc".data]).1.bytes_removed = 0
    ∧ (runTransform (FLState.init "\r\n".data) ["abc".data]).2 = []
    ∧ deleteFirstLine "\r\n".data ⟨3, "abc".data⟩ ["abc".data] = ⟨3, []⟩ :=
  no_eol_discards_all_and_counts_zero "\r\n".data (by decide) ⟨3, "abc".data⟩ ["abc".data]
    (by decide) (by decide) (by decide)

/-! ## `FileLogger.delete` and `FileLogger.clear` -/

/-- The disk as the file sink sees it: the log file's content, or
`none` when the file is absent. -/
structure DiskFile where
  file : Option (List Char)
  deriving DecidableEq

/-- An I/O error surfaced by the fs module. -/
inductive IoErr where
  | enoent
  deriving DecidableEq

/-- `Fs.unlinkSync`: removes the file; throws `ENOENT` when absent. -/
def unlinkSync (d : DiskFile) : DiskFile × Option IoErr :=
  match d.file with
  | some _ => (⟨none⟩, none)
  | none => (d, some IoErr.enoent)

/-- `FileLogger.delete`: `try { Fs.unlinkSync(this.filepath); }
catch (error) {}` — the unlink error is swallowed. -/
def fileLoggerDelete (d : DiskFile) : DiskFile × Option IoErr :=
  ((unlinkSync d).1, none)

/-- `FileLogger.clear`: end the stream, `delete`, reopen.  The reopened
append-mode stream has not touched the disk by the time the returned
promise resolves (stream opening is asynchronous), matching the
repository's own test, which observes the file as absent right after
`clear`. -/
def fileLoggerClear (d : DiskFile) : DiskFile × Option IoErr :=
  fileLoggerDelete d

/-- C9: `delete` surfaces no error and leaves the file absent from any
starting state; deleting an absent file, deleting twice in a row, and
`clear` on a nonexistent file are idempotent no-ops. -/
theorem delete_and_clear_idempotent (d : DiskFile) :
    fileLoggerDelete d = (⟨none⟩, none)
    ∧ fileLoggerDelete ⟨none⟩ = (⟨none⟩, none)
    ∧ fileLoggerDelete (fileLoggerDelete d).1 = (⟨none⟩, none)
    ∧ fileLoggerClear ⟨none⟩ = (⟨none⟩, none) := by
  refine ⟨?_, rfl, ?_, rfl⟩ <;> rcases d with ⟨_ | c⟩ <;> rfl

/-! ## The `FileLogger` size counter -/

/-- `fs.Stats`, reduced to the field this code was meant to read. -/
structure Stats where
  size : Nat
  deriving DecidableEq

/-- The JS value held by `this.filesize`. -/
inductive JsNumVal where
  | num (n : Int)
  | statsObj (st : Stats)
  deriving DecidableEq

/-- The `FileLogger` constructor's counter initialization:
`this.filesize = 0; try { this.filesize = Fs.statSync(filepath); }
catch (error) {}` — when the file exists the whole `Stats` object is
assigned (not its `.size`); when it does not, `statSync` throws and the
counter stays 0. -/
def initFilesize (existing : Option Stats) : JsNumVal :=
  match existing with
  | some st => JsNumVal.statsObj st
  | none => JsNumVal.num 0

/-- `FileLogger.append`'s counter increment:
`text += EOL; this.filesize += text.length;` — the logical JS string
length of what is written. -/
def appendCounterIncrement (text eol : String) : Nat := (text ++ eol).length

/-- The number of bytes the stream actually writes to disk for the same
call (UTF-8 encoding of the written string). -/
def appendBytesWritten (text eol : String) : Nat := (text ++ eol).utf8ByteSize

/-- C4 evidence: constructing the file sink over a pre-existing 10-byte
file leaves the counter holding the `Stats` object itself rather than
the byte size 10, and each append advances the counter by the logical
string length, which for the two-byte character `é` is not the number
of bytes written. -/
theorem filesize_counter_not_disk_bytes :
    initFilesize (some ⟨10⟩) = JsNumVal.statsObj ⟨10⟩
    ∧ initFilesize (some ⟨10⟩) ≠ JsNumVal.num 10
    ∧ initFilesize none = JsNumVal.num 0
    ∧ appendCounterIncrement "é" "\n" = 2
    ∧ appendBytesWritten "é" "\n" = 3 := by
  refine ⟨rfl, by decide, rfl, by decide, by decide⟩

/-! ## `MongoDbLogger.checkLogCount` (`src/unnamed/part_000`) -/

/-- The collection-sink state the rotation check reads: the `maxlogs`
option, the cached `log_count`, and the collection's documents in
natural order. -/
structure MongoLoggerState where
  maxlogs : Nat
  log_count : Nat
  docs : List LoggerMessage
  deriving DecidableEq

/-- The property read `this.maxlog`: the class assigns `maxlogs` and
never `maxlog`, so this access yields `undefined`. -/
def MongoLoggerState.maxlog (_ : MongoLoggerState) : Option Nat := none

/-- JS `a >= b` when `b` may be `undefined`: any comparison with
`undefined` (numerically `NaN`) is false. -/
def jsGe (a : Nat) (b : Option Nat) : Bool :=
  match b with
  | some v => v ≤ a
  | none => false

/-- `MongoDbLogger.deleteFirstDocument`: `deleteOne({})` — removes the
first document in the store's natural order. -/
def deleteFirstDocument (s : MongoLoggerState) : MongoLoggerState :=
  { s with docs := s.docs.tail }

/-- `MongoDbLogger.checkLogCount`:
`if (this.maxlogs && this.log_count >= this.maxlog) { ... await
this.deleteFirstDocument(); }` — the comparison reads `maxlog`, not
`maxlogs`. -/
def mongoCheckLogCount (s : MongoLoggerState) : MongoLoggerState :=
  if s.maxlogs ≠ 0 && jsGe s.log_count s.maxlog then deleteFirstDocument s else s

/-- C3 evidence: the collection sink's rotation check never evicts, in
any state — in particular not with `maxlogs = 1` and a cached count of
1 retained record, where the claim requires one eviction — because the
condition compares against the never-assigned property `maxlog`
(`undefined`), and `>=` against `undefined` is always false. -/
theorem mongo_rotation_never_evicts (s : MongoLoggerState) :
    mongoCheckLogCount s = s := by
  simp [mongoCheckLogCount, MongoLoggerState.maxlog, jsGe]
